import Mathlib

/-!
Verification of the ykneo-bitcoin host driver (`yubico_bitcoin/ykneo.py`,
`yubico_bitcoin/exc.py`) against its natural-language specification.

The development shallowly embeds the command codec (key-path packing,
status-word classification, APDU command construction) and the session
state machine (PIN unlock flags, key-loaded flag, version triple, and the
operations that guard and dispatch framed commands) as executable Lean
functions, and proves the specification's claims about them.

Conventions of the embedding:
* Python strings are `List Char` (paths, PINs) or `List Nat` (byte
  strings, one `Nat` per byte).
* Python exceptions become an explicit error type `YkError`; the generic
  `Exception('APDU error: ...')` / `Exception('Unable to select ...')`
  become `YkError.protocolError`, `ValueError` / `TypeError` raised on
  malformed caller input become `YkError.formatError`, and an out-of-range
  list subscript becomes `YkError.indexError`.
* The transport (`reader.transmit`) is modelled by passing in the single
  response `Resp` the device would give to the operation's one frame; each
  operation also returns the list of command frames it actually sent, so
  "no frame is sent" is the statement that this list is empty.
-/

namespace Ykneo

/-- The apostrophe character (code point 39), which marks a hardened
key-path component, as in `i.endswith("'")` in `pack_path`. -/
def aposChar : Char := Char.ofNat 39

/-- Helper for `pySplit`: accumulates the current component (reversed). -/
def pySplitAux : List Char → List Char → List (List Char)
  | [], acc => [acc.reverse]
  | c :: rest, acc =>
    if c = '/' then acc.reverse :: pySplitAux rest []
    else pySplitAux rest (c :: acc)

/-- Python's `path.split('/')`: splits on every `/`, keeping empty pieces.
In particular `''.split('/') == ['']`: the empty string yields one empty
component, not zero components. -/
def pySplit (s : List Char) : List (List Char) := pySplitAux s []

/-- Whether a component string ends with an apostrophe,
Python's `i.endswith("'")`. -/
def endsWithApos (cs : List Char) : Bool := cs.getLast? == some aposChar

/-- Python's `int(i)` on a component, restricted to the specification's
domain of non-negative decimal numerals: `none` (a `ValueError`) unless
the string is non-empty and all digits, else the decimal value.
(CPython's `int` additionally tolerates surrounding whitespace and a sign;
those inputs are outside the spec's notion of a valid path component.) -/
def parseDec (cs : List Char) : Option Nat :=
  if !cs.isEmpty && cs.all Char.isDigit then
    some (cs.foldl (fun acc c => acc * 10 + (c.toNat - 48)) 0)
  else none

/-- The integer value of a path component before hardening is applied:
the numeral with a trailing apostrophe stripped, per
`int(i[:-1]) if i.endswith("'") else int(i)`. -/
def compValue (cs : List Char) : Option Nat :=
  if endsWithApos cs then parseDec cs.dropLast else parseDec cs

/-- The 32-bit index a component denotes, per `pack_path`'s
`int(i[:-1]) | 0x80000000 if i.endswith("'") else int(i)`. -/
def parseIndex (cs : List Char) : Option Nat :=
  if endsWithApos cs then (parseDec cs.dropLast).map (fun n => n ||| 0x80000000)
  else parseDec cs

/-- `struct.pack('>I', w)`: the four big-endian bytes of a 32-bit word. -/
def word2bytes (w : Nat) : List Nat :=
  [w / 2 ^ 24 % 256, w / 2 ^ 16 % 256, w / 2 ^ 8 % 256, w % 256]

/-- Recombines four big-endian bytes into the 32-bit word they encode. -/
def bytesToWord : List Nat → Nat
  | [b0, b1, b2, b3] => ((b0 * 256 + b1) * 256 + b2) * 256 + b3
  | _ => 0

/-- Packs one component: parse (with hardening), then `struct.pack('>I', ·)`,
which raises (`none`) when the index does not fit in 32 bits. -/
def packIndex (cs : List Char) : Option (List Nat) :=
  (parseIndex cs).bind (fun w => if w < 2 ^ 32 then some (word2bytes w) else none)

/-- Packs a list of components in order, concatenating the 4-byte words;
fails as soon as any component fails. -/
def packComponents : List (List Char) → Option (List Nat)
  | [] => some []
  | c :: rest =>
    match packIndex c, packComponents rest with
    | some bs, some bss => some (bs ++ bss)
    | _, _ => none

/-- `pack_path(path)` from `ykneo.py`: split on `/`, parse each component
with optional hardening, emit each index as a big-endian 32-bit word. -/
def pack_path (s : List Char) : Option (List Nat) := packComponents (pySplit s)

/-- Outcome of classifying a status word, per the branches of
`unlock_user` / `unlock_admin`: `0x9000` is success, `status & 0xfff0 ==
0x63c0` is a failed PIN with `status & 0xf` attempts remaining, anything
else is unclassified. -/
inductive StatusResult where
  | success : StatusResult
  | pinFailed (attemptsRemaining : Nat) : StatusResult
  | unclassified (code : Nat) : StatusResult
deriving DecidableEq, Repr

/-- Combines the two raw status bytes as `_cmd` does (`sw1 << 8 | sw2`). -/
def statusWord (sw1 sw2 : Nat) : Nat := sw1 <<< 8 ||| sw2

/-- Classification of the two response status bytes, embedding the status
dispatch of `unlock_user` / `unlock_admin` (the spec's `decode_status`). -/
def decode_status (sw1 sw2 : Nat) : StatusResult :=
  let st := statusWord sw1 sw2
  if st = 0x9000 then .success
  else if st &&& 0xfff0 = 0x63c0 then .pinFailed (st &&& 0xf)
  else .unclassified st

/-- Big-endian hexadecimal digits of `n`, fuel-driven so it reduces by
`rfl`. `hexDigitsF (n+1) n` is Python's `'%x' % n` as a digit list. -/
def hexDigitsF : Nat → Nat → List Nat
  | 0, _ => []
  | f + 1, n => if n < 16 then [n] else hexDigitsF f (n / 16) ++ [n % 16]

/-- `'%x' % n`: big-endian hex digits, no leading zeros (`0` is `[0]`). -/
def hexRepr (n : Nat) : List Nat := hexDigitsF (n + 1) n

/-- `'%02x' % n`: `hexRepr n` left-padded with `0` to width at least 2.
For `n < 16` this is `[0, n]`; for `n ≥ 16` no padding happens, so values
above 255 silently produce three or more digits. -/
def hex02 (n : Nat) : List Nat := if n < 16 then [0, n] else hexRepr n

/-- `b.encode('hex')` for one byte: exactly two hex digits. -/
def byteHex (b : Nat) : List Nat := [b / 16, b % 16]

/-- `'....'.decode('hex')` followed by `map(ord, ·)` (the `hex2cmd`
helper): pairs of hex digits become bytes; an odd-length digit string
raises (`none`), as CPython's hex codec does. -/
def decodePairs : List Nat → Option (List Nat)
  | [] => some []
  | [_] => none
  | a :: b :: rest => (decodePairs rest).map (fun l => (a * 16 + b) :: l)

/-- The command-byte list `_cmd` builds and hands to `reader.transmit`:
`'%02x%02x%02x%02x%02x%s' % (cl, ins, p1, p2, len(data), data.encode('hex'))`
decoded from hex. Note that the length field is `'%02x' % len(data)`, which
is two digits only for lengths up to 255; longer payloads give a longer
length field and, when the total digit count is odd, a decode failure. -/
def buildCmd (cl ins p1 p2 : Nat) (data : List Nat) : Option (List Nat) :=
  decodePairs (hex02 cl ++ hex02 ins ++ hex02 p1 ++ hex02 p2 ++
    hex02 data.length ++ (data.map byteHex).flatten)

/-- The typed failures of the driver (`exc.py` plus the generic exceptions
raised in `ykneo.py`), under the specification's taxonomy. -/
inductive YkError where
  | noKeyLoaded : YkError
  | pinModeLocked (admin : Bool) : YkError
  | incorrectPin (admin : Bool) (attemptsRemaining : Nat) : YkError
  | formatError : YkError
  | protocolError (status : Nat) : YkError
  | indexError : YkError
deriving DecidableEq, Repr

/-- The response the transport returns for one transmitted frame:
`reader.transmit` gives `(data, sw1, sw2)`. -/
structure Resp where
  data : List Nat
  sw1 : Nat
  sw2 : Nat
deriving DecidableEq, Repr

/-- The session-scoped state of `YkneoBitcoin`: the two unlock flags, the
key-loaded flag and the firmware version triple. -/
structure Session where
  user_unlocked : Bool
  admin_unlocked : Bool
  key_loaded : Bool
  version : Nat × Nat × Nat
deriving DecidableEq, Repr

/-- `"%d.%d.%d" % self._version`, the `version` property. -/
def Session.version_string (s : Session) : String :=
  Nat.repr s.version.1 ++ "." ++ Nat.repr s.version.2.1 ++ "." ++ Nat.repr s.version.2.2

/-- Result of running one session operation: the returned value or raised
error, the session state afterwards, and the frames sent to the transport
(in order; `[]` means the operation never reached the transport). -/
structure Outcome where
  result : Except YkError (List Nat)
  session : Session
  frames : List (List Nat)
deriving Repr

/-- `_cmd`: build the command bytes and exchange them for a response;
returns the response data and the combined status word, together with the
frames actually sent. A frame-construction failure raises before
`reader.transmit` is called, so no frame is sent in that case. -/
def cmdRaw (cl ins p1 p2 : Nat) (data : List Nat) (resp : Resp) :
    Except YkError (List Nat × Nat) × List (List Nat) :=
  match buildCmd cl ins p1 p2 data with
  | none => (.error .formatError, [])
  | some f => (.ok (resp.data, statusWord resp.sw1 resp.sw2), [f])

/-- `_cmd_ok`: like `_cmd` but raises `Exception('APDU error: ...')`
(modelled `protocolError status`) unless the status word is `0x9000`. -/
def cmdOk (cl ins p1 p2 : Nat) (data : List Nat) (resp : Resp) :
    Except YkError (List Nat) × List (List Nat) :=
  match cmdRaw cl ins p1 p2 data resp with
  | (.error e, fs) => (.error e, fs)
  | (.ok (d, st), fs) =>
    if st = 0x9000 then (.ok d, fs) else (.error (.protocolError st), fs)

/-- `unlock_user(pin)` (the spec's `verify_user_pin`): one verify frame
(INS `0x21`, P2 `0`); `0x9000` sets the user flag, a `0x63Cn` status
clears it and raises `IncorrectPIN(False, status & 0xf)`, anything else
raises the generic APDU error leaving the flag untouched. -/
def unlock_user (s : Session) (pin : List Nat) (resp : Resp) : Outcome :=
  match cmdRaw 0 0x21 0 0 pin resp with
  | (.error e, fs) => ⟨.error e, s, fs⟩
  | (.ok (_, st), fs) =>
    if st = 0x9000 then ⟨.ok [], { s with user_unlocked := true }, fs⟩
    else if st &&& 0xfff0 = 0x63c0 then
      ⟨.error (.incorrectPin false (st &&& 0xf)), { s with user_unlocked := false }, fs⟩
    else ⟨.error (.protocolError st), s, fs⟩

/-- `unlock_admin(pin)` (the spec's `verify_admin_pin`): as `unlock_user`
but P2 `1` and the admin flag. -/
def unlock_admin (s : Session) (pin : List Nat) (resp : Resp) : Outcome :=
  match cmdRaw 0 0x21 0 1 pin resp with
  | (.error e, fs) => ⟨.error e, s, fs⟩
  | (.ok (_, st), fs) =>
    if st = 0x9000 then ⟨.ok [], { s with admin_unlocked := true }, fs⟩
    else if st &&& 0xfff0 = 0x63c0 then
      ⟨.error (.incorrectPin true (st &&& 0xf)), { s with admin_unlocked := false }, fs⟩
    else ⟨.error (.protocolError st), s, fs⟩

/-- The change-PIN payload `chr(len(old)) + old + chr(len(new)) + new` from
`_send_set_pin`; `chr` raises for arguments above 255. -/
def setPinPayload (oldPin newPin : List Nat) : Option (List Nat) :=
  if oldPin.length < 256 && newPin.length < 256 then
    some (oldPin.length :: oldPin ++ newPin.length :: newPin)
  else none

/-- `set_user_pin(old, new)`: change-PIN frame (INS `0x22`, P2 `0`), with
the same status dispatch as `unlock_user` on the user flag. -/
def set_user_pin (s : Session) (oldPin newPin : List Nat) (resp : Resp) : Outcome :=
  match setPinPayload oldPin newPin with
  | none => ⟨.error .formatError, s, []⟩
  | some payload =>
    match cmdRaw 0 0x22 0 0 payload resp with
    | (.error e, fs) => ⟨.error e, s, fs⟩
    | (.ok (_, st), fs) =>
      if st = 0x9000 then ⟨.ok [], { s with user_unlocked := true }, fs⟩
      else if st &&& 0xfff0 = 0x63c0 then
        ⟨.error (.incorrectPin false (st &&& 0xf)), { s with user_unlocked := false }, fs⟩
      else ⟨.error (.protocolError st), s, fs⟩

/-- `set_admin_pin(old, new)`: change-PIN frame (INS `0x22`, P2 `1`), with
the same status dispatch as `unlock_admin` on the admin flag. -/
def set_admin_pin (s : Session) (oldPin newPin : List Nat) (resp : Resp) : Outcome :=
  match setPinPayload oldPin newPin with
  | none => ⟨.error .formatError, s, []⟩
  | some payload =>
    match cmdRaw 0 0x22 0 1 payload resp with
    | (.error e, fs) => ⟨.error e, s, fs⟩
    | (.ok (_, st), fs) =>
      if st = 0x9000 then ⟨.ok [], { s with admin_unlocked := true }, fs⟩
      else if st &&& 0xfff0 = 0x63c0 then
        ⟨.error (.incorrectPin true (st &&& 0xf)), { s with admin_unlocked := false }, fs⟩
      else ⟨.error (.protocolError st), s, fs⟩

/-- `_send_set_retry_count(attempts, admin)` behind `@require_admin`, as
reached from `set_user_retry_count` / `set_admin_retry_count`: requires
the admin flag; `ValueError` unless `0 < attempts < 16`; then a
`_cmd_ok` dispatch of INS `0x15` with payload `chr(attempts)`. -/
def set_retry_count (s : Session) (attempts : Nat) (admin : Bool) (resp : Resp) : Outcome :=
  if !s.admin_unlocked then ⟨.error (.pinModeLocked true), s, []⟩
  else if !(decide (0 < attempts) && decide (attempts < 16)) then
    ⟨.error .formatError, s, []⟩
  else
    match cmdOk 0 0x15 0 (if admin then 1 else 0) [attempts] resp with
    | (r, fs) => ⟨r, s, fs⟩

/-- `reset_user_pin(pin)` behind `@require_admin`: INS `0x14` via
`_cmd_ok`; touches no session flag. -/
def reset_user_pin (s : Session) (pin : List Nat) (resp : Resp) : Outcome :=
  if !s.admin_unlocked then ⟨.error (.pinModeLocked true), s, []⟩
  else
    match cmdOk 0 0x14 0 0 pin resp with
    | (r, fs) => ⟨r, s, fs⟩

/-- The P2 byte of `generate_master_key_pair`: the three booleans as bit
flags `0x01`, `0x02`, `0x04`. -/
def genP2 (allowExport returnPrivate testnet : Bool) : Nat :=
  (if allowExport then 0x01 else 0) |||
    (if returnPrivate then 0x02 else 0) ||| (if testnet then 0x04 else 0)

/-- `generate_master_key_pair(allow_export, return_private, testnet)`
behind `@require_admin`: INS `0x11` with the three booleans as P2 bit
flags; on success sets the key-loaded flag and returns the payload. -/
def generate_master_key_pair (s : Session)
    (allowExport returnPrivate testnet : Bool) (resp : Resp) : Outcome :=
  if !s.admin_unlocked then ⟨.error (.pinModeLocked true), s, []⟩
  else
    match cmdOk 0 0x11 0 (genP2 allowExport returnPrivate testnet) [] resp with
    | (.ok d, fs) => ⟨.ok d, { s with key_loaded := true }, fs⟩
    | (.error e, fs) => ⟨.error e, s, fs⟩

/-- `import_extended_key_pair(serialized_key, allow_export)` behind
`@require_admin`: INS `0x12`, P2 the export flag; on success sets the
key-loaded flag. -/
def import_extended_key_pair (s : Session)
    (serializedKey : List Nat) (allowExport : Bool) (resp : Resp) : Outcome :=
  if !s.admin_unlocked then ⟨.error (.pinModeLocked true), s, []⟩
  else
    match cmdOk 0 0x12 0 (if allowExport then 1 else 0) serializedKey resp with
    | (.ok _, fs) => ⟨.ok [], { s with key_loaded := true }, fs⟩
    | (.error e, fs) => ⟨.error e, s, fs⟩

/-- `export_extended_public_key()` behind `@require_admin`: INS `0x13`. -/
def export_extended_public_key (s : Session) (resp : Resp) : Outcome :=
  if !s.admin_unlocked then ⟨.error (.pinModeLocked true), s, []⟩
  else
    match cmdOk 0 0x13 0 0 [] resp with
    | (r, fs) => ⟨r, s, fs⟩

/-- `get_public_key(path)` behind `@require_user` then `@require_key`
(so the user-unlock check runs first): INS `0x01` with the packed path;
a bad path raises before any frame is built. -/
def get_public_key (s : Session) (path : List Char) (resp : Resp) : Outcome :=
  if !s.user_unlocked then ⟨.error (.pinModeLocked false), s, []⟩
  else if !s.key_loaded then ⟨.error .noKeyLoaded, s, []⟩
  else
    match pack_path path with
    | none => ⟨.error .formatError, s, []⟩
    | some pp =>
      match cmdOk 0 0x01 0 0 pp resp with
      | (r, fs) => ⟨r, s, fs⟩

/-- `sign(path, digest)` behind `@require_user` then `@require_key`:
`ValueError` unless the digest is exactly 32 bytes (checked before the
path is packed), then INS `0x02` with payload `pack_path(path) + digest`. -/
def sign (s : Session) (path : List Char) (digest : List Nat) (resp : Resp) : Outcome :=
  if !s.user_unlocked then ⟨.error (.pinModeLocked false), s, []⟩
  else if !s.key_loaded then ⟨.error .noKeyLoaded, s, []⟩
  else if digest.length ≠ 32 then ⟨.error .formatError, s, []⟩
  else
    match pack_path path with
    | none => ⟨.error .formatError, s, []⟩
    | some pp =>
      match cmdOk 0 0x02 0 0 (pp ++ digest) resp with
      | (r, fs) => ⟨r, s, fs⟩

/-- `get_header()` behind `@require_user` then `@require_key`: INS `0x03`
with empty payload. -/
def get_header (s : Session) (resp : Resp) : Outcome :=
  if !s.user_unlocked then ⟨.error (.pinModeLocked false), s, []⟩
  else if !s.key_loaded then ⟨.error .noKeyLoaded, s, []⟩
  else
    match cmdOk 0 0x03 0 0 [] resp with
    | (r, fs) => ⟨r, s, fs⟩

/-- The applet-select payload `'a0000005272102'.decode('hex')`. -/
def selectPayload : List Nat := [0xa0, 0x00, 0x00, 0x05, 0x27, 0x21, 0x02]

/-- Interpretation of the select response in `YkneoBitcoin.__init__`: a
non-`0x9000` status raises `Exception('Unable to select the applet')`
(modelled as the generic protocol error), otherwise the version triple
comes from payload bytes 0-2 (`tuple(data[0:3])`) and the key-loaded flag
from `data[3] == 1`; a payload shorter than 4 bytes raises an
`IndexError` at that subscript. Both unlock flags start false. -/
def selectResult (d : List Nat) (st : Nat) : Except YkError Session :=
  if st ≠ 0x9000 then .error (.protocolError st)
  else
    match d with
    | d0 :: d1 :: d2 :: d3 :: _ => .ok ⟨false, false, d3 == 1, (d0, d1, d2)⟩
    | _ => .error .indexError

/-- `YkneoBitcoin.__init__`: send the applet-select command and interpret
the response via `selectResult`. -/
def session_init (resp : Resp) : Except YkError Session × List (List Nat) :=
  match cmdRaw 0 0xa4 0x04 0x00 selectPayload resp with
  | (.error e, fs) => (.error e, fs)
  | (.ok (d, st), fs) => (selectResult d st, fs)

/-- One invocation of a public `YkneoBitcoin` operation, with its
arguments. -/
inductive Op where
  | unlockUser (pin : List Nat) : Op
  | unlockAdmin (pin : List Nat) : Op
  | setUserPin (oldPin newPin : List Nat) : Op
  | setAdminPin (oldPin newPin : List Nat) : Op
  | setUserRetryCount (attempts : Nat) : Op
  | setAdminRetryCount (attempts : Nat) : Op
  | resetUserPin (pin : List Nat) : Op
  | generateMasterKeyPair (allowExport returnPrivate testnet : Bool) : Op
  | importExtendedKeyPair (serializedKey : List Nat) (allowExport : Bool) : Op
  | exportExtendedPublicKey : Op
  | getPublicKey (path : List Char) : Op
  | signOp (path : List Char) (digest : List Nat) : Op
  | getHeader : Op

/-- Dispatches one operation invocation against a session state, feeding
it the one response the transport would return. -/
def runOp (s : Session) (op : Op) (resp : Resp) : Outcome :=
  match op with
  | .unlockUser pin => unlock_user s pin resp
  | .unlockAdmin pin => unlock_admin s pin resp
  | .setUserPin oldPin newPin => set_user_pin s oldPin newPin resp
  | .setAdminPin oldPin newPin => set_admin_pin s oldPin newPin resp
  | .setUserRetryCount attempts => set_retry_count s attempts false resp
  | .setAdminRetryCount attempts => set_retry_count s attempts true resp
  | .resetUserPin pin => reset_user_pin s pin resp
  | .generateMasterKeyPair a r t => generate_master_key_pair s a r t resp
  | .importExtendedKeyPair k a => import_extended_key_pair s k a resp
  | .exportExtendedPublicKey => export_extended_public_key s resp
  | .getPublicKey path => get_public_key s path resp
  | .signOp path digest => sign s path digest resp
  | .getHeader => get_header s resp

/-- Whether an operation is one of the two that write the key-loaded
flag (`generate_master_key_pair` and `import_extended_key_pair`). -/
def writesKeyLoaded : Op → Bool
  | .generateMasterKeyPair _ _ _ => true
  | .importExtendedKeyPair _ _ => true
  | _ => false

/-! ### Helper lemmas about the codec -/

theorem decodePairs_odd : ∀ l : List Nat, l.length % 2 = 1 → decodePairs l = none
  | [], h => by simp at h
  | [_], _ => rfl
  | _ :: _ :: rest, h => by
    have h' : rest.length % 2 = 1 := by
      simp only [List.length_cons] at h; omega
    simp [decodePairs, decodePairs_odd rest h']

theorem decodePairs_append : ∀ (l₁ xs : List Nat), decodePairs l₁ = some xs →
    ∀ l₂ : List Nat, decodePairs (l₁ ++ l₂) = (decodePairs l₂).map (fun ys => xs ++ ys)
  | [], xs, h, l₂ => by
    simp only [decodePairs, Option.some.injEq] at h
    subst h
    simp [Option.map]
    cases decodePairs l₂ <;> rfl
  | [_], xs, h, _ => by simp [decodePairs] at h
  | a :: b :: rest, xs, h, l₂ => by
    simp only [decodePairs, Option.map_eq_some'] at h
    obtain ⟨ys, hys, rfl⟩ := h
    simp only [List.cons_append, List.append_eq, decodePairs]
    rw [decodePairs_append rest ys hys l₂]
    cases decodePairs l₂ <;> simp

theorem decodePairs_flatten_byteHex : ∀ data : List Nat,
    decodePairs ((data.map byteHex).flatten) = some data
  | [] => rfl
  | b :: rest => by
    have ih := decodePairs_flatten_byteHex rest
    simp only [List.map_cons, List.flatten_cons, byteHex, List.cons_append,
      List.append_eq, List.nil_append, decodePairs, ih, Option.map_some']
    have : b / 16 * 16 + b % 16 = b := by omega
    rw [this]

theorem flatten_byteHex_length (data : List Nat) :
    ((data.map byteHex).flatten).length = 2 * data.length := by
  induction data with
  | nil => rfl
  | cons b rest ih =>
    simp only [List.map_cons, List.flatten_cons, List.length_append, ih, byteHex,
      List.length_cons, List.length_nil, List.length_cons]
    omega

theorem hexRepr_lt16 (n : Nat) (h : n < 16) : hexRepr n = [n] := by
  simp [hexRepr, hexDigitsF, h]

theorem hex02_lt256 (n : Nat) (h : n < 256) : hex02 n = [n / 16, n % 16] := by
  by_cases h16 : n < 16
  · rw [hex02, if_pos h16]
    have h1 : n / 16 = 0 := by omega
    have h2 : n % 16 = n := by omega
    rw [h1, h2]
  · rw [hex02, if_neg h16]
    obtain ⟨m, rfl⟩ : ∃ m, n = m + 1 := ⟨n - 1, by omega⟩
    simp [hexRepr, hexDigitsF, h16, show (m + 1) / 16 < 16 by omega]

theorem hex02_len3 (n : Nat) (h1 : 256 ≤ n) (h2 : n < 4096) :
    hex02 n = [n / 16 / 16, n / 16 % 16, n % 16] := by
  rw [hex02, if_neg (by omega)]
  obtain ⟨m, rfl⟩ : ∃ m, n = m + 2 := ⟨n - 2, by omega⟩
  simp [hexRepr, hexDigitsF, show ¬(m + 2 < 16) by omega,
    show ¬((m + 2) / 16 < 16) by omega, show (m + 2) / 16 / 16 < 16 by omega]

theorem buildCmd_small (cl ins p1 p2 : Nat) (data : List Nat)
    (hcl : cl < 256) (hins : ins < 256) (hp1 : p1 < 256) (hp2 : p2 < 256)
    (hlen : data.length ≤ 255) :
    buildCmd cl ins p1 p2 data = some ([cl, ins, p1, p2, data.length] ++ data) := by
  unfold buildCmd
  rw [hex02_lt256 cl hcl, hex02_lt256 ins hins, hex02_lt256 p1 hp1, hex02_lt256 p2 hp2,
    hex02_lt256 data.length (by omega)]
  simp only [List.cons_append, List.append_eq, List.nil_append, decodePairs,
    decodePairs_flatten_byteHex, Option.map_some']
  have e1 : cl / 16 * 16 + cl % 16 = cl := by omega
  have e2 : ins / 16 * 16 + ins % 16 = ins := by omega
  have e3 : p1 / 16 * 16 + p1 % 16 = p1 := by omega
  have e4 : p2 / 16 * 16 + p2 % 16 = p2 := by omega
  have e5 : data.length / 16 * 16 + data.length % 16 = data.length := by omega
  rw [e1, e2, e3, e4, e5]

theorem buildCmd_mid_none (cl ins p1 p2 : Nat) (data : List Nat)
    (hcl : cl < 256) (hins : ins < 256) (hp1 : p1 < 256) (hp2 : p2 < 256)
    (h1 : 256 ≤ data.length) (h2 : data.length < 4096) :
    buildCmd cl ins p1 p2 data = none := by
  unfold buildCmd
  apply decodePairs_odd
  rw [hex02_lt256 cl hcl, hex02_lt256 ins hins, hex02_lt256 p1 hp1, hex02_lt256 p2 hp2,
    hex02_len3 data.length h1 h2]
  simp only [List.length_append, flatten_byteHex_length, List.length_cons, List.length_nil]
  omega

theorem lor_high_bit (n : Nat) (h : n < 2 ^ 31) : n ||| 2 ^ 31 = 2 ^ 31 + n := by
  have hmul := Nat.mul_add_lt_is_or (i := 31) h 1
  rw [Nat.mul_one] at hmul
  rw [Nat.or_comm]
  exact hmul.symm

theorem bytesToWord_word2bytes (w : Nat) (h : w < 2 ^ 32) :
    bytesToWord (word2bytes w) = w := by
  have h24 : (2 : Nat) ^ 24 = 16777216 := by norm_num
  have h16 : (2 : Nat) ^ 16 = 65536 := by norm_num
  have h8 : (2 : Nat) ^ 8 = 256 := by norm_num
  have h32 : (2 : Nat) ^ 32 = 4294967296 := by norm_num
  simp only [word2bytes, bytesToWord, h24, h16, h8]
  rw [h32] at h
  omega

theorem word2bytes_length (w : Nat) : (word2bytes w).length = 4 := rfl

theorem packIndex_spec (c : List Char) (bs : List Nat)
    (h : packIndex c = some bs)
    (hs : ∀ n, compValue c = some n → n < 2 ^ 31) :
    ∃ w, bs = word2bytes w ∧ w < 2 ^ 32 ∧
      (2 ^ 31 ≤ w ↔ endsWithApos c = true) ∧
      compValue c = some (w % 2 ^ 31) ∧ bytesToWord bs = w := by
  unfold packIndex parseIndex at h
  unfold compValue at hs ⊢
  by_cases ha : endsWithApos c = true
  · rw [if_pos ha] at h ⊢
    rw [if_pos ha] at hs
    cases hp : parseDec c.dropLast with
    | none => rw [hp] at h; simp at h
    | some n =>
      rw [hp] at h
      simp only [Option.map_some', Option.some_bind] at h
      have hn : n < 2 ^ 31 := hs n hp
      have hone : (0x80000000 : Nat) = 2 ^ 31 := by norm_num
      rw [hone, lor_high_bit n hn] at h
      have hw32 : 2 ^ 31 + n < 2 ^ 32 := by
        have h2 : (2 : Nat) ^ 32 = 2 ^ 31 + 2 ^ 31 := by norm_num
        omega
      rw [if_pos hw32] at h
      obtain rfl : bs = word2bytes (2 ^ 31 + n) := by simpa using h.symm
      refine ⟨2 ^ 31 + n, rfl, hw32, by simp [ha], ?_, bytesToWord_word2bytes _ hw32⟩
      congr 1
      omega
  · rw [if_neg ha] at h ⊢
    rw [if_neg ha] at hs
    cases hp : parseDec c with
    | none => rw [hp] at h; simp at h
    | some n =>
      rw [hp] at h
      simp only [Option.some_bind] at h
      have hn : n < 2 ^ 31 := hs n hp
      have hw32 : n < 2 ^ 32 := by
        have h2 : (2 : Nat) ^ 31 < 2 ^ 32 := by norm_num
        omega
      rw [if_pos hw32] at h
      obtain rfl : bs = word2bytes n := by simpa using h.symm
      refine ⟨n, rfl, hw32, by simp [ha]; omega, ?_, bytesToWord_word2bytes _ hw32⟩
      congr 1
      omega

/-- The per-component relationship `pack_path` establishes between a
component string and the 32-bit word emitted for it. -/
def ComponentWord (c : List Char) (w : Nat) : Prop :=
  w < 2 ^ 32 ∧ (2 ^ 31 ≤ w ↔ endsWithApos c = true) ∧
    compValue c = some (w % 2 ^ 31) ∧ bytesToWord (word2bytes w) = w

theorem packComponents_spec : ∀ (l : List (List Char)) (bs : List Nat),
    packComponents l = some bs →
    (∀ c ∈ l, ∀ n, compValue c = some n → n < 2 ^ 31) →
    ∃ ws : List Nat, bs = (ws.map word2bytes).flatten ∧
      List.Forall₂ ComponentWord l ws
  | [], bs, h, _ => by
    simp only [packComponents, Option.some.injEq] at h
    exact ⟨[], by simp [h.symm], .nil⟩
  | c :: rest, bs, h, hsmall => by
    cases hc : packIndex c with
    | none => rw [packComponents, hc] at h; simp at h
    | some cbs =>
      cases hr : packComponents rest with
      | none => rw [packComponents, hc, hr] at h; simp at h
      | some rbs =>
        rw [packComponents, hc, hr] at h
        simp only [Option.some.injEq] at h
        obtain ⟨w, rfl, hw32, hbit, hval, hrt⟩ :=
          packIndex_spec c cbs hc (hsmall c (by simp))
        obtain ⟨ws, rfl, hf⟩ :=
          packComponents_spec rest rbs hr (fun c' hc' => hsmall c' (by simp [hc']))
        exact ⟨w :: ws, by simp [h.symm], .cons ⟨hw32, hbit, hval, hrt⟩ hf⟩

theorem flatten_word2bytes_length : ∀ ws : List Nat,
    ((ws.map word2bytes).flatten).length = 4 * ws.length
  | [] => rfl
  | w :: rest => by
    simp only [List.map_cons, List.flatten_cons, List.length_append,
      flatten_word2bytes_length rest, word2bytes_length, List.length_cons]
    omega

/-! ### Concrete fixtures used by witnesses and counterexamples -/

/-- A freshly selected session with nothing unlocked and no key. -/
def sBase : Session := ⟨false, false, false, (1, 0, 3)⟩

/-- A session with only the user PIN verified. -/
def sUserOnly : Session := ⟨true, false, false, (1, 0, 3)⟩

/-- A session with the user PIN verified and a key loaded. -/
def sReady : Session := ⟨true, false, true, (1, 0, 3)⟩

/-- A session with only the admin PIN verified. -/
def sAdminOnly : Session := ⟨false, true, false, (1, 0, 3)⟩

/-- A success response carrying two payload bytes. -/
def respOk : Resp := ⟨[9, 9], 0x90, 0x00⟩

/-- A PIN-failure response with 2 attempts remaining (`0x63C2`). -/
def respPinFail2 : Resp := ⟨[], 0x63, 0xc2⟩

/-- An unclassified response (`0x6F00`). -/
def respOther : Resp := ⟨[], 0x6f, 0x00⟩

/-- The select response of the spec's scenario: payload `[1,0,3,0]`,
status `0x9000`. -/
def respSelect : Resp := ⟨[1, 0, 3, 0], 0x90, 0x00⟩

/-- A hardened example path, the string `1/4711'`. -/
def pathW : List Char := "1/4711".toList ++ [aposChar]

/-! ### Claim theorems -/

/-- C5, counterexample: encoding the empty path string does not succeed;
`''.split('/')` is `['']` and the empty component fails integer parsing,
so `pack_path('')` raises rather than returning the empty encoding. -/
theorem pack_path_empty_cex : (pack_path "".toList).isSome = false := rfl

/-- C5, amended: the empty path string is not a valid input to
`pack_path`: splitting it yields exactly one empty component, which fails
decimal parsing, so the encoding fails (a `ValueError`, the spec's
`FormatError`) instead of producing the zero-component encoding. -/
theorem pack_path_empty_fails :
    pySplit "".toList = [[]] ∧ parseDec [] = none ∧ pack_path "".toList = none :=
  ⟨rfl, rfl, rfl⟩

/-- C4, counterexample: the status bytes `(0x63, 0x0A)` form the word
`0x630A`, which is not in the `0x63Cn` family, so the code classifies it
as unclassified, not as `PinFailed` with 10 attempts remaining. -/
theorem decode_status_630A_cex :
    decode_status 0x63 0x0A = StatusResult.unclassified 0x630A ∧
    decode_status 0x63 0x0A ≠ StatusResult.pinFailed 10 := by decide

/-- C4, amended: `(0x90, 0x00)` is Success, `(0x63, 0xCA)` (not
`(0x63, 0x0A)`) is `PinFailed` with 10 attempts remaining, and every
combination whose word is neither `0x9000` nor in the `0x63Cn` family
(`status & 0xfff0 == 0x63c0`) is Unclassified with the raw 16-bit code. -/
theorem decode_status_classification (sw1 sw2 : Nat) :
    decode_status 0x90 0x00 = StatusResult.success ∧
    decode_status 0x63 0xCA = StatusResult.pinFailed 10 ∧
    (statusWord sw1 sw2 = 0x9000 → decode_status sw1 sw2 = StatusResult.success) ∧
    (statusWord sw1 sw2 &&& 0xfff0 = 0x63c0 →
      decode_status sw1 sw2 = StatusResult.pinFailed (statusWord sw1 sw2 &&& 0xf)) ∧
    (statusWord sw1 sw2 ≠ 0x9000 → statusWord sw1 sw2 &&& 0xfff0 ≠ 0x63c0 →
      decode_status sw1 sw2 = StatusResult.unclassified (statusWord sw1 sw2)) := by
  refine ⟨by decide, by decide, fun h => ?_, fun h => ?_, fun h1 h2 => ?_⟩
  · simp [decode_status, h]
  · have h9 : statusWord sw1 sw2 ≠ 0x9000 := by
      intro hx
      rw [hx] at h
      exact absurd h (by decide)
    simp [decode_status, h, h9]
  · simp [decode_status, h1, h2]

/-- C4, witness: instantiating the classification at `(0x6F, 0x00)`. -/
theorem decode_status_classification_witness :
    decode_status 0x6f 0x00 = StatusResult.unclassified 0x6f00 :=
  (decode_status_classification 0x6f 0x00).2.2.2.2 (by decide) (by decide)

/-- C3, counterexample: the path `2147483648` is accepted by `pack_path`
(its single component is a non-negative integer fitting 32 bits), has no
trailing apostrophe, yet its encoded word has the top bit set, and
masking the top bit yields `0`, not the original `2147483648`. -/
theorem pack_path_high_index_cex :
    pack_path "2147483648".toList = some [128, 0, 0, 0] ∧
    endsWithApos "2147483648".toList = false ∧
    2 ^ 31 ≤ bytesToWord [128, 0, 0, 0] ∧
    bytesToWord [128, 0, 0, 0] % 2 ^ 31 ≠ 2147483648 := by
  refine ⟨by decide, by decide, by norm_num [bytesToWord], by norm_num [bytesToWord]⟩

/-- C3, amended: for every path accepted by `pack_path` all of whose
components denote integers below `2^31` before hardening, the encoding is
`4 * N` bytes (`N` the number of components), consisting of each
component's 32-bit big-endian word in path order; the word's top bit is
set exactly when the component ends in an apostrophe, and masking the top
bit (`mod 2^31`) of each word recovers the component's original integer. -/
theorem pack_path_roundtrip (s : List Char) (bs : List Nat)
    (hok : pack_path s = some bs)
    (hsmall : (pySplit s).all (fun c => decide ((compValue c).getD 0 < 2 ^ 31)) = true) :
    bs.length = 4 * (pySplit s).length ∧
    ∃ ws : List Nat, bs = (ws.map word2bytes).flatten ∧
      List.Forall₂ ComponentWord (pySplit s) ws := by
  have hsmall' : ∀ c ∈ pySplit s, ∀ n, compValue c = some n → n < 2 ^ 31 := by
    intro c hc n hn
    have hall := List.all_eq_true.mp hsmall c hc
    rw [hn] at hall
    simpa using hall
  obtain ⟨ws, rfl, hf⟩ := packComponents_spec _ _ hok hsmall'
  exact ⟨by rw [flatten_word2bytes_length, hf.length_eq], ws, rfl, hf⟩

set_option maxRecDepth 8000 in
/-- C3, witness: the path `1/4711'` packs to two words, the hardened
component carrying the top bit. -/
theorem pack_path_roundtrip_witness :
    pack_path pathW = some [0, 0, 0, 1, 128, 0, 18, 103] ∧
    ([0, 0, 0, 1, 128, 0, 18, 103] : List Nat).length = 4 * (pySplit pathW).length ∧
    ∃ ws : List Nat, ([0, 0, 0, 1, 128, 0, 18, 103] : List Nat) = (ws.map word2bytes).flatten ∧
      List.Forall₂ ComponentWord (pySplit pathW) ws := by
  have h := pack_path_roundtrip pathW [0, 0, 0, 1, 128, 0, 18, 103] (by decide) (by decide)
  exact ⟨by decide, h.1, h.2⟩

/-- A 4096-byte payload, whose hex length field `'1000'` has even length. -/
def bigPayload : List Nat := List.replicate 4096 0

/-- C8, counterexample: a payload of 4096 bytes (greater than 255) does
not make frame construction fail: `'%02x' % 4096` is the four digits
`1000`, the command string has even length, and `_cmd` silently produces
a malformed frame whose length field occupies two bytes. -/
theorem buildCmd_large_payload_cex :
    buildCmd 0 0x01 0 0 bigPayload = some ([0, 1, 0, 0, 16, 0] ++ bigPayload) := by
  have h1 : bigPayload.length = 4096 := by
    unfold bigPayload
    exact List.length_replicate 4096 0
  unfold buildCmd
  rw [h1]
  rw [decodePairs_append (hex02 0 ++ hex02 0x01 ++ hex02 0 ++ hex02 0 ++ hex02 4096)
    [0, 1, 0, 0, 16, 0] rfl ((bigPayload.map byteHex).flatten)]
  rw [decodePairs_flatten_byteHex bigPayload]
  rfl

/-- C8, amended: with header bytes below 256, payloads of length 0-255
produce exactly the frame `CLA | INS | P1 | P2 | LEN | PAYLOAD` with a
one-byte length field, and payloads of length 256-4095 make construction
fail (the hex command string has odd length). The original claim's
"every payload above 255 bytes fails" is refuted at length 4096 by the
counterexample. -/
theorem buildCmd_length_behavior (cl ins p1 p2 : Nat) (data : List Nat)
    (hcl : cl < 256) (hins : ins < 256) (hp1 : p1 < 256) (hp2 : p2 < 256) :
    (data.length ≤ 255 →
      buildCmd cl ins p1 p2 data = some ([cl, ins, p1, p2, data.length] ++ data)) ∧
    (256 ≤ data.length → data.length < 4096 →
      buildCmd cl ins p1 p2 data = none) :=
  ⟨fun h => buildCmd_small cl ins p1 p2 data hcl hins hp1 hp2 h,
   fun h1 h2 => buildCmd_mid_none cl ins p1 p2 data hcl hins hp1 hp2 h1 h2⟩

/-- C8, witness: a one-byte payload frames as header, length 1, payload;
a 256-byte payload fails. -/
theorem buildCmd_length_behavior_witness :
    buildCmd 0 1 0 0 [170] = some [0, 1, 0, 0, 1, 170] ∧
    buildCmd 0 1 0 0 (List.replicate 256 49) = none := by
  constructor
  · have h := (buildCmd_length_behavior 0 1 0 0 [170]
      (by decide) (by decide) (by decide) (by decide)).1 (by decide)
    simpa using h
  · exact (buildCmd_length_behavior 0 1 0 0 (List.replicate 256 49)
      (by decide) (by decide) (by decide) (by decide)).2
      (le_of_eq (List.length_replicate 256 49).symm)
      (by rw [List.length_replicate]; omega)

/-- C1: every privileged key operation (`get_public_key`, `sign`,
`get_header`) rejects with `PinModeLocked{admin=false}` when the user is
locked (whatever the key-loaded flag), and with `NoKeyLoaded` when the
user is unlocked but no key is loaded; in both cases no frame is sent to
the transport and the session state is returned unchanged. -/
theorem privileged_ops_precondition_checks (s : Session) (path : List Char)
    (digest : List Nat) (resp : Resp) :
    (s.user_unlocked = false →
      get_public_key s path resp = ⟨.error (.pinModeLocked false), s, []⟩ ∧
      sign s path digest resp = ⟨.error (.pinModeLocked false), s, []⟩ ∧
      get_header s resp = ⟨.error (.pinModeLocked false), s, []⟩) ∧
    (s.user_unlocked = true → s.key_loaded = false →
      get_public_key s path resp = ⟨.error .noKeyLoaded, s, []⟩ ∧
      sign s path digest resp = ⟨.error .noKeyLoaded, s, []⟩ ∧
      get_header s resp = ⟨.error .noKeyLoaded, s, []⟩) := by
  constructor
  · intro h
    refine ⟨?_, ?_, ?_⟩ <;> simp [get_public_key, sign, get_header, h]
  · intro h1 h2
    refine ⟨?_, ?_, ?_⟩ <;> simp [get_public_key, sign, get_header, h1, h2]

/-- C1, witness: a locked session rejects `get_header` with
`PinModeLocked{admin=false}`; a user-unlocked, key-less session rejects
`get_public_key` with `NoKeyLoaded`. -/
theorem privileged_ops_precondition_checks_witness :
    get_header sBase respOk = ⟨.error (.pinModeLocked false), sBase, []⟩ ∧
    get_public_key sUserOnly "0/7".toList respOk = ⟨.error .noKeyLoaded, sUserOnly, []⟩ :=
  ⟨((privileged_ops_precondition_checks sBase "0/7".toList [] respOk).1 rfl).2.2,
   ((privileged_ops_precondition_checks sUserOnly "0/7".toList [] respOk).2 rfl rfl).1⟩

/-- C2, counterexample: with a 256-byte PIN no verify frame is sent at
all — the hex command string has odd length, so `_cmd` raises before
`reader.transmit` — refuting "for every PIN string ... each send one
verify frame". -/
theorem unlock_user_long_pin_cex :
    unlock_user sBase (List.replicate 256 49) respOk = ⟨.error .formatError, sBase, []⟩ := by
  unfold unlock_user cmdRaw
  rw [buildCmd_mid_none 0 0x21 0 0 (List.replicate 256 49)
    (by decide) (by decide) (by decide) (by decide)
    (le_of_eq (List.length_replicate 256 49).symm)
    (by rw [List.length_replicate]; omega)]

/-- C2, amended: for every PIN string of at most 255 bytes,
`unlock_user` / `unlock_admin` send exactly one verify frame
(INS `0x21`, P2 0 resp. 1, the PIN as payload) and dispatch on the
status word: `0x9000` sets the corresponding unlocked flag true and
returns; a `0x63Cn` status sets the flag false and raises
`IncorrectPin{admin, n}`; any other status raises the generic protocol
error and leaves the flag unchanged. -/
theorem unlock_pin_status_dispatch (s : Session) (pin : List Nat) (resp : Resp)
    (hlen : pin.length ≤ 255) :
    ((unlock_user s pin resp).frames = [[0, 0x21, 0, 0, pin.length] ++ pin] ∧
     (unlock_admin s pin resp).frames = [[0, 0x21, 0, 1, pin.length] ++ pin]) ∧
    (statusWord resp.sw1 resp.sw2 = 0x9000 →
      (unlock_user s pin resp).result = .ok [] ∧
      (unlock_user s pin resp).session = { s with user_unlocked := true } ∧
      (unlock_admin s pin resp).result = .ok [] ∧
      (unlock_admin s pin resp).session = { s with admin_unlocked := true }) ∧
    (statusWord resp.sw1 resp.sw2 ≠ 0x9000 →
      statusWord resp.sw1 resp.sw2 &&& 0xfff0 = 0x63c0 →
      (unlock_user s pin resp).result =
        .error (.incorrectPin false (statusWord resp.sw1 resp.sw2 &&& 0xf)) ∧
      (unlock_user s pin resp).session = { s with user_unlocked := false } ∧
      (unlock_admin s pin resp).result =
        .error (.incorrectPin true (statusWord resp.sw1 resp.sw2 &&& 0xf)) ∧
      (unlock_admin s pin resp).session = { s with admin_unlocked := false }) ∧
    (statusWord resp.sw1 resp.sw2 ≠ 0x9000 →
      statusWord resp.sw1 resp.sw2 &&& 0xfff0 ≠ 0x63c0 →
      (unlock_user s pin resp).result = .error (.protocolError (statusWord resp.sw1 resp.sw2)) ∧
      (unlock_user s pin resp).session = s ∧
      (unlock_admin s pin resp).result = .error (.protocolError (statusWord resp.sw1 resp.sw2)) ∧
      (unlock_admin s pin resp).session = s) := by
  have hu : buildCmd 0 0x21 0 0 pin = some ([0, 0x21, 0, 0, pin.length] ++ pin) :=
    buildCmd_small 0 0x21 0 0 pin (by decide) (by decide) (by decide) (by decide) hlen
  have ha : buildCmd 0 0x21 0 1 pin = some ([0, 0x21, 0, 1, pin.length] ++ pin) :=
    buildCmd_small 0 0x21 0 1 pin (by decide) (by decide) (by decide) (by decide) hlen
  unfold unlock_user unlock_admin cmdRaw
  rw [hu, ha]
  refine ⟨⟨?_, ?_⟩, fun h9 => ?_, fun h9 hp => ?_, fun h9 hp => ?_⟩ <;>
    simp only [] <;> split_ifs <;> simp_all

/-- C2, witness: instantiating the dispatch at the spec's scenario — a
4-byte PIN and the `0x63C2` response — yields `IncorrectPin{admin=false,
attempts_remaining=2}` with the user flag cleared. -/
theorem unlock_pin_status_dispatch_witness :
    (unlock_user sBase [49, 50, 51, 52] respPinFail2).result =
      .error (.incorrectPin false 2) ∧
    (unlock_user sBase [49, 50, 51, 52] respPinFail2).session =
      { sBase with user_unlocked := false } := by
  have h := (unlock_pin_status_dispatch sBase [49, 50, 51, 52] respPinFail2
    (by decide)).2.2.1 (by decide) (by decide)
  exact ⟨h.1, h.2.1⟩

/-- C6: with the user unlocked and a key loaded, `sign` rejects any
digest whose length is not exactly 32 bytes with `FormatError`, sending
no frame; a 32-byte digest passes the check and (for a packable path of
at most 223 path bytes) exactly one frame, INS `0x02` with payload
`path-words || digest`, is dispatched. -/
theorem sign_digest_length_check (s : Session) (path : List Char)
    (digest : List Nat) (resp : Resp)
    (hu : s.user_unlocked = true) (hk : s.key_loaded = true) :
    (digest.length ≠ 32 → sign s path digest resp = ⟨.error .formatError, s, []⟩) ∧
    (digest.length = 32 → ∀ pp, pack_path path = some pp → pp.length ≤ 223 →
      (sign s path digest resp).frames =
        [[0, 0x02, 0, 0, pp.length + 32] ++ (pp ++ digest)]) := by
  constructor
  · intro h
    simp [sign, hu, hk, h]
  · intro h32 pp hpp hsmall
    have hlen : (pp ++ digest).length = pp.length + 32 := by
      rw [List.length_append, h32]
    have hb : buildCmd 0 0x02 0 0 (pp ++ digest) =
        some ([0, 0x02, 0, 0, pp.length + 32] ++ (pp ++ digest)) := by
      have := buildCmd_small 0 0x02 0 0 (pp ++ digest)
        (by decide) (by decide) (by decide) (by decide) (by omega)
      rwa [hlen] at this
    unfold sign cmdOk cmdRaw
    rw [hpp]
    simp only [hu, hk, h32, Bool.not_true, Bool.false_eq_true, if_false, hb]
    split_ifs <;> first | rfl | omega

/-- C6, witness: a 31-byte digest is rejected without any exchange; a
32-byte digest on path `0/7` dispatches one INS `0x02` frame. -/
theorem sign_digest_length_check_witness :
    sign sReady "0/7".toList (List.replicate 31 0) respOk = ⟨.error .formatError, sReady, []⟩ ∧
    (sign sReady "0/7".toList (List.replicate 32 0) respOk).frames =
      [[0, 0x02, 0, 0, 40] ++ ([0, 0, 0, 0, 0, 0, 0, 7] ++ List.replicate 32 0)] := by
  constructor
  · exact (sign_digest_length_check sReady "0/7".toList (List.replicate 31 0) respOk
      rfl rfl).1 (by rw [List.length_replicate]; omega)
  · have h := (sign_digest_length_check sReady "0/7".toList (List.replicate 32 0) respOk
      rfl rfl).2 (List.length_replicate 32 0) [0, 0, 0, 0, 0, 0, 0, 7] (by decide) (by decide)
    simpa using h

/-- C7: `set_retry_count` raises `PinModeLocked{admin=true}` whenever the
admin flag is false, before the range check (so even for out-of-range
counts); with admin unlocked it rejects every count outside 1..15 with a
`ValueError` (the spec's `FormatError`) and no frame; count 15 passes the
check and the set-retry frame (INS `0x15`, payload `chr(15)`) is sent. -/
theorem set_retry_count_guards (s : Session) (n : Nat) (admin : Bool) (resp : Resp) :
    (s.admin_unlocked = false →
      set_retry_count s n admin resp = ⟨.error (.pinModeLocked true), s, []⟩) ∧
    (s.admin_unlocked = true → (n = 0 ∨ 16 ≤ n) →
      set_retry_count s n admin resp = ⟨.error .formatError, s, []⟩) ∧
    (s.admin_unlocked = true →
      (set_retry_count s 15 admin resp).frames =
        [[0, 0x15, 0, if admin then 1 else 0, 1, 15]]) := by
  refine ⟨fun h => ?_, fun h hr => ?_, fun h => ?_⟩
  · simp [set_retry_count, h]
  · have hcond : (decide (0 < n) && decide (n < 16)) = false := by
      rcases hr with h0 | h16
      · subst h0; decide
      · have h16' : ¬n < 16 := by omega
        simp [h16']
    simp [set_retry_count, h, hcond]
  · have hb : buildCmd 0 0x15 0 (if admin then 1 else 0) [15] =
        some ([0, 0x15, 0, if admin then 1 else 0, 1] ++ [15]) := by
      cases admin <;>
        exact buildCmd_small 0 0x15 0 _ [15] (by decide) (by decide) (by decide)
          (by decide) (by decide)
    unfold set_retry_count cmdOk cmdRaw
    rw [hb]
    simp [h]
    split_ifs <;> rfl

/-- C7, witness: with admin locked, `set_retry_count 16` raises
`PinModeLocked{admin=true}`; with admin unlocked, counts 0 and 16 raise
`FormatError` with no frame, and count 15 sends the set-retry frame. -/
theorem set_retry_count_guards_witness :
    set_retry_count sBase 16 true respOk = ⟨.error (.pinModeLocked true), sBase, []⟩ ∧
    set_retry_count sAdminOnly 0 false respOk = ⟨.error .formatError, sAdminOnly, []⟩ ∧
    set_retry_count sAdminOnly 16 true respOk = ⟨.error .formatError, sAdminOnly, []⟩ ∧
    (set_retry_count sAdminOnly 15 true respOk).frames = [[0, 0x15, 0, 1, 1, 15]] := by
  refine ⟨(set_retry_count_guards sBase 16 true respOk).1 rfl,
    (set_retry_count_guards sAdminOnly 0 false respOk).2.1 rfl (Or.inl rfl),
    (set_retry_count_guards sAdminOnly 16 true respOk).2.1 rfl (Or.inr (by omega)),
    ?_⟩
  have h := (set_retry_count_guards sAdminOnly 15 true respOk).2.2 rfl
  simpa using h

/-- C9: constructing a session sends the applet-select frame; any status
other than `0x9000` raises the generic protocol error; on success the
session's version is the payload's bytes 0-2, its key-loaded flag holds
exactly when payload byte 3 equals 1, and both unlock flags are false. -/
theorem session_init_behavior (resp : Resp) :
    (session_init resp).2 = [[0, 0xa4, 4, 0, 7] ++ selectPayload] ∧
    (statusWord resp.sw1 resp.sw2 ≠ 0x9000 →
      (session_init resp).1 = .error (.protocolError (statusWord resp.sw1 resp.sw2))) ∧
    (statusWord resp.sw1 resp.sw2 = 0x9000 →
      ∀ d0 d1 d2 d3 rest, resp.data = d0 :: d1 :: d2 :: d3 :: rest →
        (session_init resp).1 = .ok ⟨false, false, d3 == 1, (d0, d1, d2)⟩) := by
  have hb : buildCmd 0 0xa4 0x04 0x00 selectPayload =
      some ([0, 0xa4, 4, 0, 7] ++ selectPayload) :=
    buildCmd_small 0 0xa4 4 0 selectPayload (by decide) (by decide) (by decide)
      (by decide) (by decide)
  unfold session_init cmdRaw
  rw [hb]
  refine ⟨rfl, fun h => ?_, fun h d0 d1 d2 d3 rest hd => ?_⟩
  · simp [selectResult, h]
  · rw [hd]
    simp [selectResult, h]

/-- C9, witness: the spec's scenario — select succeeds with payload
`[1,0,3,0]` — yields version string `1.0.3`, no key loaded, and both
unlock flags false. -/
theorem session_init_behavior_witness :
    (session_init respSelect).1 = .ok sBase ∧
    sBase.version_string = "1.0.3" ∧ sBase.key_loaded = false ∧
    sBase.user_unlocked = false ∧ sBase.admin_unlocked = false := by
  have h := (session_init_behavior respSelect).2.2 (by decide) 1 0 3 0 [] rfl
  exact ⟨h, rfl, rfl, rfl, rfl⟩

theorem unlock_user_keyver (s : Session) (pin : List Nat) (resp : Resp) :
    (unlock_user s pin resp).session.key_loaded = s.key_loaded ∧
    (unlock_user s pin resp).session.version = s.version := by
  unfold unlock_user cmdRaw
  repeat' split
  all_goals exact ⟨rfl, rfl⟩

theorem unlock_admin_keyver (s : Session) (pin : List Nat) (resp : Resp) :
    (unlock_admin s pin resp).session.key_loaded = s.key_loaded ∧
    (unlock_admin s pin resp).session.version = s.version := by
  unfold unlock_admin cmdRaw
  repeat' split
  all_goals exact ⟨rfl, rfl⟩

theorem set_user_pin_keyver (s : Session) (oldPin newPin : List Nat) (resp : Resp) :
    (set_user_pin s oldPin newPin resp).session.key_loaded = s.key_loaded ∧
    (set_user_pin s oldPin newPin resp).session.version = s.version := by
  unfold set_user_pin cmdRaw
  repeat' split
  all_goals exact ⟨rfl, rfl⟩

theorem set_admin_pin_keyver (s : Session) (oldPin newPin : List Nat) (resp : Resp) :
    (set_admin_pin s oldPin newPin resp).session.key_loaded = s.key_loaded ∧
    (set_admin_pin s oldPin newPin resp).session.version = s.version := by
  unfold set_admin_pin cmdRaw
  repeat' split
  all_goals exact ⟨rfl, rfl⟩

theorem set_retry_count_session_eq (s : Session) (n : Nat) (admin : Bool) (resp : Resp) :
    (set_retry_count s n admin resp).session = s := by
  unfold set_retry_count cmdOk cmdRaw
  repeat' split
  all_goals rfl

theorem reset_user_pin_session_eq (s : Session) (pin : List Nat) (resp : Resp) :
    (reset_user_pin s pin resp).session = s := by
  unfold reset_user_pin cmdOk cmdRaw
  repeat' split
  all_goals rfl

theorem export_session_eq (s : Session) (resp : Resp) :
    (export_extended_public_key s resp).session = s := by
  unfold export_extended_public_key cmdOk cmdRaw
  repeat' split
  all_goals rfl

theorem get_public_key_session_eq (s : Session) (path : List Char) (resp : Resp) :
    (get_public_key s path resp).session = s := by
  unfold get_public_key cmdOk cmdRaw
  repeat' split
  all_goals rfl

theorem sign_session_eq (s : Session) (path : List Char) (digest : List Nat) (resp : Resp) :
    (sign s path digest resp).session = s := by
  unfold sign cmdOk cmdRaw
  repeat' split
  all_goals rfl

theorem get_header_session_eq (s : Session) (resp : Resp) :
    (get_header s resp).session = s := by
  unfold get_header cmdOk cmdRaw
  repeat' split
  all_goals rfl

theorem generate_keyver (s : Session) (a r t : Bool) (resp : Resp) :
    (generate_master_key_pair s a r t resp).session.version = s.version ∧
    (∀ d, (generate_master_key_pair s a r t resp).result = .ok d →
      (generate_master_key_pair s a r t resp).session.key_loaded = true) ∧
    (∀ e, (generate_master_key_pair s a r t resp).result = .error e →
      (generate_master_key_pair s a r t resp).session.key_loaded = s.key_loaded) := by
  unfold generate_master_key_pair cmdOk cmdRaw
  repeat' split
  all_goals refine ⟨rfl, fun d hd => ?_, fun e he => ?_⟩
  all_goals first | rfl | simp_all

theorem import_keyver (s : Session) (k : List Nat) (a : Bool) (resp : Resp) :
    (import_extended_key_pair s k a resp).session.version = s.version ∧
    (∀ d, (import_extended_key_pair s k a resp).result = .ok d →
      (import_extended_key_pair s k a resp).session.key_loaded = true) ∧
    (∀ e, (import_extended_key_pair s k a resp).result = .error e →
      (import_extended_key_pair s k a resp).session.key_loaded = s.key_loaded) := by
  unfold import_extended_key_pair cmdOk cmdRaw
  repeat' split
  all_goals refine ⟨rfl, fun d hd => ?_, fun e he => ?_⟩
  all_goals first | rfl | simp_all

/-- C10: across every session operation, the version triple is never
modified; the key-loaded flag is written only by
`generate_master_key_pair` and `import_extended_key_pair`, which set it
to true exactly on a successful dispatch; hence once the flag is true no
operation ever makes it false. -/
theorem key_loaded_monotone (s : Session) (op : Op) (resp : Resp) :
    (runOp s op resp).session.version = s.version ∧
    (s.key_loaded = true → (runOp s op resp).session.key_loaded = true) ∧
    (writesKeyLoaded op = false →
      (runOp s op resp).session.key_loaded = s.key_loaded) ∧
    (∀ d, (runOp s op resp).result = .ok d → writesKeyLoaded op = true →
      (runOp s op resp).session.key_loaded = true) ∧
    (∀ e, (runOp s op resp).result = .error e →
      (runOp s op resp).session.key_loaded = s.key_loaded) := by
  cases op with
  | unlockUser pin =>
    obtain ⟨hk, hv⟩ := unlock_user_keyver s pin resp
    exact ⟨hv, fun h => hk.trans h, fun _ => hk,
      fun d _ hw => Bool.noConfusion hw, fun _ _ => hk⟩
  | unlockAdmin pin =>
    obtain ⟨hk, hv⟩ := unlock_admin_keyver s pin resp
    exact ⟨hv, fun h => hk.trans h, fun _ => hk,
      fun d _ hw => Bool.noConfusion hw, fun _ _ => hk⟩
  | setUserPin oldPin newPin =>
    obtain ⟨hk, hv⟩ := set_user_pin_keyver s oldPin newPin resp
    exact ⟨hv, fun h => hk.trans h, fun _ => hk,
      fun d _ hw => Bool.noConfusion hw, fun _ _ => hk⟩
  | setAdminPin oldPin newPin =>
    obtain ⟨hk, hv⟩ := set_admin_pin_keyver s oldPin newPin resp
    exact ⟨hv, fun h => hk.trans h, fun _ => hk,
      fun d _ hw => Bool.noConfusion hw, fun _ _ => hk⟩
  | setUserRetryCount n =>
    have hs : (runOp s (Op.setUserRetryCount n) resp).session = s := set_retry_count_session_eq s n false resp
    exact ⟨by rw [hs], fun h => by rw [hs]; exact h, fun _ => by rw [hs],
      fun d _ hw => Bool.noConfusion hw, fun _ _ => by rw [hs]⟩
  | setAdminRetryCount n =>
    have hs : (runOp s (Op.setAdminRetryCount n) resp).session = s := set_retry_count_session_eq s n true resp
    exact ⟨by rw [hs], fun h => by rw [hs]; exact h, fun _ => by rw [hs],
      fun d _ hw => Bool.noConfusion hw, fun _ _ => by rw [hs]⟩
  | resetUserPin pin =>
    have hs : (runOp s (Op.resetUserPin pin) resp).session = s := reset_user_pin_session_eq s pin resp
    exact ⟨by rw [hs], fun h => by rw [hs]; exact h, fun _ => by rw [hs],
      fun d _ hw => Bool.noConfusion hw, fun _ _ => by rw [hs]⟩
  | generateMasterKeyPair a r t =>
    obtain ⟨hv, hok, herr⟩ := generate_keyver s a r t resp
    refine ⟨hv, fun h => ?_, fun hw => Bool.noConfusion hw,
      fun d hd _ => hok d hd, fun e he => herr e he⟩
    cases hres : (generate_master_key_pair s a r t resp).result with
    | ok d => exact hok d hres
    | error e => exact (herr e hres).trans h
  | importExtendedKeyPair k a =>
    obtain ⟨hv, hok, herr⟩ := import_keyver s k a resp
    refine ⟨hv, fun h => ?_, fun hw => Bool.noConfusion hw,
      fun d hd _ => hok d hd, fun e he => herr e he⟩
    cases hres : (import_extended_key_pair s k a resp).result with
    | ok d => exact hok d hres
    | error e => exact (herr e hres).trans h
  | exportExtendedPublicKey =>
    have hs : (runOp s (Op.exportExtendedPublicKey) resp).session = s := export_session_eq s resp
    exact ⟨by rw [hs], fun h => by rw [hs]; exact h, fun _ => by rw [hs],
      fun d _ hw => Bool.noConfusion hw, fun _ _ => by rw [hs]⟩
  | getPublicKey path =>
    have hs : (runOp s (Op.getPublicKey path) resp).session = s := get_public_key_session_eq s path resp
    exact ⟨by rw [hs], fun h => by rw [hs]; exact h, fun _ => by rw [hs],
      fun d _ hw => Bool.noConfusion hw, fun _ _ => by rw [hs]⟩
  | signOp path digest =>
    have hs : (runOp s (Op.signOp path digest) resp).session = s := sign_session_eq s path digest resp
    exact ⟨by rw [hs], fun h => by rw [hs]; exact h, fun _ => by rw [hs],
      fun d _ hw => Bool.noConfusion hw, fun _ _ => by rw [hs]⟩
  | getHeader =>
    have hs : (runOp s (Op.getHeader) resp).session = s := get_header_session_eq s resp
    exact ⟨by rw [hs], fun h => by rw [hs]; exact h, fun _ => by rw [hs],
      fun d _ hw => Bool.noConfusion hw, fun _ _ => by rw [hs]⟩

/-- C10, witness: with a key loaded, a `get_header` call keeps the flag
true and the version unchanged. -/
theorem key_loaded_monotone_witness :
    (runOp sReady Op.getHeader respOk).session.version = sReady.version ∧
    (runOp sReady Op.getHeader respOk).session.key_loaded = true ∧
    (runOp sReady Op.getHeader respOk).session.key_loaded = sReady.key_loaded := by
  have h := key_loaded_monotone sReady Op.getHeader respOk
  exact ⟨h.1, h.2.1 rfl, h.2.2.1 rfl⟩

end Ykneo
